import Mathlib

/-!
# Verification of the chat-service core (`chat-service/main.py`)

Shallow embedding of the streaming chat orchestrator: Python string
primitives, the reasoning-block stream filter, the intent classifier,
the canvas-element parser, and the in-memory session store, together
with theorems settling the specification claims about them.

Machine integers do not occur in this code path; Python strings are
modelled as `String`/`List Char`, timestamps as `Int` (seconds), and
JSON numbers as `Rat`.
-/

namespace ChatService

/-! ## Python string primitives -/

/-- `hay.startswith(needle)` on character lists. -/
def isPrefixL : List Char → List Char → Bool
  | [], _ => true
  | _ :: _, [] => false
  | n :: ns, h :: hs => n == h && isPrefixL ns hs

/-- Python substring test `needle in hay`. -/
def containsL (needle : List Char) : List Char → Bool
  | [] => needle.isEmpty
  | c :: rest => isPrefixL needle (c :: rest) || containsL needle rest

/-- Split `hay` at the first occurrence of `needle`: returns the part before
the first occurrence and the part after it (Python `hay.split(needle, 1)`
when the separator occurs). `none` when `needle` does not occur. -/
def splitFirst (needle : List Char) : List Char → Option (List Char × List Char)
  | [] => if needle.isEmpty then some ([], []) else none
  | c :: rest =>
    if isPrefixL needle (c :: rest) then some ([], (c :: rest).drop needle.length)
    else
      match splitFirst needle rest with
      | none => none
      | some (b, a) => some (c :: b, a)

/-- The characters Python `str.isspace()` accepts — the set removed by
`str.strip()`: ASCII whitespace, the information separators, next-line,
and the Unicode space characters (U+00A0, U+1680, U+2000–U+200A, U+2028,
U+2029, U+202F, U+205F, U+3000). -/
def isPyWs (c : Char) : Bool :=
  c == ' ' || c == '\t' || c == '\n' || c == '\r' || c == '\x0b' || c == '\x0c' ||
  (decide ('\x1c' ≤ c) && decide (c ≤ '\x1f')) || c == '\x85' || c == '\xa0' ||
  c == '\u1680' || (decide ('\u2000' ≤ c) && decide (c ≤ '\u200a')) ||
  c == '\u2028' || c == '\u2029' || c == '\u202f' || c == '\u205f' || c == '\u3000'

/-- Truthiness of `l.strip()`: the list holds at least one non-whitespace char. -/
def hasNonWs (l : List Char) : Bool :=
  l.any (fun c => !isPyWs c)

/-- Python `s.strip()` on a character list. -/
def stripL (l : List Char) : List Char :=
  ((l.dropWhile isPyWs).reverse.dropWhile isPyWs).reverse

/-- Python substring test `needle in hay` at `String` level. -/
def strContains (hay needle : String) : Bool :=
  containsL needle.data hay.data

/-- Python `s.lower()` (ASCII case mapping, the only case occurring here). -/
def lowerStr (s : String) : String :=
  ⟨s.data.map Char.toLower⟩

/-! ## AI tool intent detection (`detect_tool_intent`, main.py)

`_TOOL_KEYWORDS` is a Python `dict` built from literal entries, so its
iteration order is the insertion order below; each value is a `frozenset`
queried only through `any(kw in msg_lower for kw in keywords)`, so the
order inside each keyword list is irrelevant. -/

def _DIAGRAM_KEYWORDS : List String :=
  ["flowchart", "diagram", "mindmap", "mind map", "sequence diagram",
   "class diagram", "er diagram", "gantt", "pie chart", "state diagram",
   "graph", "chart", "architecture", "uml", "schema"]

def _IMAGE_KEYWORDS : List String :=
  ["generate image", "generate an image", "create image",
   "create an image", "generate picture", "create picture",
   "photo of", "picture of", "image of", "illustration of",
   "generate a photo", "make an image", "make a picture"]

def _SKETCH_KEYWORDS : List String :=
  ["sketch to image", "convert sketch", "turn sketch",
   "make it realistic", "sketch to real", "transform sketch",
   "convert my drawing", "turn my drawing", "make my sketch"]

def _OCR_KEYWORDS : List String :=
  ["read text", "extract text", "ocr", "what text",
   "recognize text", "what does it say", "read the text",
   "text recognition", "scan text"]

def _TTS_KEYWORDS : List String :=
  ["read aloud", "speak", "say this", "text to speech",
   "read this aloud", "tts", "pronounce", "voice",
   "say it out loud", "read out"]

def _TOOL_KEYWORDS : List (String × List String) :=
  [("diagram", _DIAGRAM_KEYWORDS),
   ("image", _IMAGE_KEYWORDS),
   ("sketch", _SKETCH_KEYWORDS),
   ("ocr", _OCR_KEYWORDS),
   ("tts", _TTS_KEYWORDS)]

def _DRAW_KEYWORDS : List String :=
  ["draw", "create", "add", "place", "make", "build", "put", "insert",
   "box", "circle", "rectangle", "arrow", "shape", "ellipse", "diamond",
   "layout", "wireframe", "design", "sticky", "note",
   "organize", "arrange", "connect", "link"]

def _DIAGRAM_STYLES : List (String × String) :=
  [("flowchart", "flowchart"),
   ("flow chart", "flowchart"),
   ("mindmap", "mindmap"),
   ("mind map", "mindmap"),
   ("sequence", "sequence"),
   ("class diagram", "classDiagram"),
   ("er diagram", "erDiagram"),
   ("state diagram", "stateDiagram"),
   ("gantt", "gantt"),
   ("pie", "pie")]

/-- The dict returned by `detect_tool_intent`: tool name plus the optional
`prompt` and `style` keys. -/
structure ToolIntentR where
  tool : String
  prompt : Option String
  style : Option String
deriving Repr, DecidableEq

/-- First tier of `_TOOL_KEYWORDS` whose keyword set matches the lowered
message (the `for tool_name, keywords in _TOOL_KEYWORDS.items()` loop). -/
def findTier (msgLower : String) : List (String × List String) → Option String
  | [] => none
  | (name, kws) :: rest =>
    if kws.any (fun kw => strContains msgLower kw) then some name
    else findTier msgLower rest

/-- Diagram style resolution: first matching entry of `_DIAGRAM_STYLES`
in insertion order, defaulting to `"flowchart"`. -/
def findDiagramStyle (msgLower : String) : List (String × String) → String
  | [] => "flowchart"
  | (k, v) :: rest => if strContains msgLower k then v else findDiagramStyle msgLower rest

/-- `detect_tool_intent` (main.py): specific tool tiers in dict order,
then the generic draw fallback, then `None`. -/
def detect_tool_intent (message : String) : Option ToolIntentR :=
  let msgLower := lowerStr message
  match findTier msgLower _TOOL_KEYWORDS with
  | some toolName =>
    some { tool := toolName, prompt := some message,
           style := if toolName == "diagram"
                    then some (findDiagramStyle msgLower _DIAGRAM_STYLES)
                    else none }
  | none =>
    if _DRAW_KEYWORDS.any (fun kw => strContains msgLower kw) then
      some { tool := "draw", prompt := some message, style := none }
    else none

/-- C7: `detect_tool_intent` is a pure function of the message text (it is a
Lean function of `message` and the static tables, so determinism is inherent),
and any text containing both a Diagram-tier keyword and a generic
Draw-fallback keyword is classified as `"diagram"` (tier priority: the
diagram tier is tested before the draw fallback). -/
theorem detect_tool_intent_diagram_priority (msg : String)
    (hdiag : ∃ kw ∈ _DIAGRAM_KEYWORDS, strContains (lowerStr msg) kw = true)
    (_hdraw : ∃ kw ∈ _DRAW_KEYWORDS, strContains (lowerStr msg) kw = true) :
    ∃ ti, detect_tool_intent msg = some ti ∧ ti.tool = "diagram" := by
  obtain ⟨kw, hkw, hc⟩ := hdiag
  have hany : _DIAGRAM_KEYWORDS.any (fun k => strContains (lowerStr msg) k) = true :=
    List.any_eq_true.mpr ⟨kw, hkw, hc⟩
  refine ⟨{ tool := "diagram", prompt := some msg,
            style := some (findDiagramStyle (lowerStr msg) _DIAGRAM_STYLES) }, ?_, rfl⟩
  simp [detect_tool_intent, _TOOL_KEYWORDS, findTier, hany]

/-- Witness for C7 at `"draw a flowchart"`, which contains the diagram
keyword `"flowchart"` and the draw keyword `"draw"`. -/
theorem detect_tool_intent_diagram_priority_witness :
    ∃ ti, detect_tool_intent "draw a flowchart" = some ti ∧ ti.tool = "diagram" :=
  detect_tool_intent_diagram_priority "draw a flowchart"
    ⟨"flowchart", by decide, by decide⟩ ⟨"draw", by decide, by decide⟩

/-! ## JSON values

Model of the Python objects produced by `json.loads`: numbers as `Rat`
(covering ints and decimal floats), objects as key-value lists in
insertion order with unique keys. -/

inductive Json where
  | null
  | bool (b : Bool)
  | num (q : Rat)
  | str (s : String)
  | arr (items : List Json)
  | obj (fields : List (String × Json))
deriving Repr

mutual

/-- Structural equality on JSON values (Python `==` on the decoded objects). -/
def Json.beq : Json → Json → Bool
  | .null, .null => true
  | .bool a, .bool b => a == b
  | .num a, .num b => a == b
  | .str a, .str b => a == b
  | .arr a, .arr b => Json.beqArr a b
  | .obj a, .obj b => Json.beqObj a b
  | _, _ => false

def Json.beqArr : List Json → List Json → Bool
  | [], [] => true
  | a :: ar, b :: br => Json.beq a b && Json.beqArr ar br
  | _, _ => false

def Json.beqObj : List (String × Json) → List (String × Json) → Bool
  | [], [] => true
  | (ka, va) :: ar, (kb, vb) :: br => ka == kb && Json.beq va vb && Json.beqObj ar br
  | _, _ => false

end

instance : BEq Json := ⟨Json.beq⟩

/-- A Python dict with string keys, as delivered for `elements` items. -/
abbrev PyDict := List (String × Json)

/-! ## Session data model (`ChatSession`, main.py) -/

inductive Role where
  | user
  | assistant
deriving Repr, DecidableEq

/-- A LangChain `HumanMessage`/`AIMessage`: role, text content, and the
optional `additional_kwargs["reasoning_details"]` side channel. -/
structure PyMsg where
  role : Role
  content : String
  reasoning_details : Option String := none
deriving Repr, DecidableEq

/-- The `canvas_context` value set by `ChatSession.__init__` and `/chat/clear`. -/
def emptyBoardContext : String := "The whiteboard is currently completely empty."

/-- `ChatSession` (main.py): id, message history, canvas context, timestamps.
Timestamps are `Int` seconds (`datetime.now()` instants). -/
structure ChatSession where
  session_id : String
  messages : List PyMsg
  canvas_context : String
  created_at : Int
  last_active : Int
deriving Repr, DecidableEq

/-- `ChatSession.__init__(session_id)` at time `now`. -/
def ChatSession.init (session_id : String) (now : Int) : ChatSession :=
  { session_id := session_id, messages := [], canvas_context := emptyBoardContext,
    created_at := now, last_active := now }

/-- Python `l[-m:]`: for `m > 0` the last `m` items (all of `l` when
`m ≥ len(l)`); for `m = 0`, `l[-0:]` is `l[0:]`, the whole list. -/
def pyTail {α : Type} (l : List α) (m : Nat) : List α :=
  if m = 0 then l else l.drop (l.length - m)

/-- Python `l[-m:-1]`: `l[-m:]` with the final element further excluded;
for `m = 0` it is `l[0:-1]`, everything but the last element. -/
def pyTailDropLast {α : Type} (l : List α) (m : Nat) : List α :=
  if m = 0 then l.dropLast else l.dropLast.drop (l.length - m)

/-- `ChatSession.trim_history` with the configured `MAX_HISTORY_MESSAGES`:
`if len(messages) > max: messages = messages[-max:]`. -/
def ChatSession.trim_history (maxH : Nat) (s : ChatSession) : ChatSession :=
  if s.messages.length > maxH then { s with messages := pyTail s.messages maxH } else s

/-- The `[SYSTEM NOTE: ...]` augmented user input built by `get_chain_input`. -/
def injectedInput (canvas_context user_input : String) : String :=
  "[SYSTEM NOTE: Current Live Canvas Context]\n" ++ canvas_context ++
  "\n\n[User Request]\n" ++ user_input

/-- The dict returned by `ChatSession.get_chain_input`. -/
structure ChainInput where
  input : String
  history : List PyMsg
  canvas_context : String
deriving Repr, DecidableEq

/-- `ChatSession.get_chain_input(user_input)` at time `now`: refreshes
`last_active`, appends the user message, and builds the chain input with
the history slice `messages[-max:-1]` (just-appended message excluded). -/
def ChatSession.get_chain_input (maxH : Nat) (s : ChatSession) (user_input : String)
    (now : Int) : ChatSession × ChainInput :=
  let s1 : ChatSession :=
    { s with last_active := now,
             messages := s.messages ++ [{ role := .user, content := user_input }] }
  (s1, { input := injectedInput s.canvas_context user_input,
         history := pyTailDropLast s1.messages maxH,
         canvas_context := s.canvas_context })

/-! ## Session store (`_sessions` dict, main.py)

The Python dict is modelled as a key-value list with unique keys in
insertion order; `lookupS`/`insertS`/`updateS` give dict read, fresh
insert, and in-place mutation of a stored session. -/

def lookupS {α : Type} : List (String × α) → String → Option α
  | [], _ => none
  | (k, v) :: rest, key => if key = k then some v else lookupS rest key

def insertS {α : Type} (store : List (String × α)) (k : String) (v : α) :
    List (String × α) :=
  store ++ [(k, v)]

def updateS {α : Type} : List (String × α) → String → α → List (String × α)
  | [], _, _ => []
  | (k, v) :: rest, key, nv =>
    if key = k then (k, nv) :: rest else (k, v) :: updateS rest key nv

theorem lookupS_insertS_self {α : Type} (store : List (String × α)) (k : String)
    (v : α) (h : lookupS store k = none) : lookupS (insertS store k v) k = some v := by
  induction store with
  | nil => simp [insertS, lookupS]
  | cons p rest ih =>
    obtain ⟨pk, pv⟩ := p
    by_cases hk : k = pk
    · simp [lookupS, hk] at h
    · simp only [insertS, List.cons_append, lookupS, if_neg hk] at h ⊢
      exact ih h

theorem lookupS_updateS_self {α : Type} (store : List (String × α)) (k : String)
    (v w : α) (h : lookupS store k = some v) :
    lookupS (updateS store k w) k = some w := by
  induction store with
  | nil => simp [lookupS] at h
  | cons p rest ih =>
    obtain ⟨pk, pv⟩ := p
    by_cases hk : k = pk
    · simp [lookupS, updateS, hk]
    · simp [lookupS, updateS, hk] at h ⊢
      exact ih h

theorem lookupS_updateS_other {α : Type} (store : List (String × α)) (k k2 : String)
    (w : α) (h : k2 ≠ k) : lookupS (updateS store k w) k2 = lookupS store k2 := by
  induction store with
  | nil => simp [updateS]
  | cons p rest ih =>
    obtain ⟨pk, pv⟩ := p
    by_cases hk : k = pk
    · subst hk
      simp [lookupS, updateS, h]
    · by_cases hk2 : k2 = pk <;> simp [lookupS, updateS, hk, hk2, ih]

/-! ## `/chat` session resolution (main.py, `chat` endpoint)

```python
session_id = req.session_id or str(uuid.uuid4())
if session_id not in _sessions:
    _sessions[session_id] = ChatSession(session_id)
session = _sessions[session_id]
```
`freshId` stands for the `uuid.uuid4()` draw; Python `or` falls back on a
missing or empty-string `session_id`. -/

def getOrCreate (store : List (String × ChatSession)) (reqId : Option String)
    (freshId : String) (now : Int) : String × List (String × ChatSession) :=
  let sid := match reqId with
    | none => freshId
    | some s => if s = "" then freshId else s
  if (lookupS store sid).isSome then (sid, store)
  else (sid, insertS store sid (ChatSession.init sid now))

/-- C3 counterexample: a supplied id `"abc"` that is unknown to the store
does get a fresh session, but under the supplied id `"abc"` itself, not
under the newly generated id (`"f3a1"` here) that the claim requires. -/
theorem getOrCreate_unknown_id_keeps_supplied_id :
    (getOrCreate [] (some "abc") "f3a1" 0).1 = "abc" ∧
    ("abc" : String) ≠ "f3a1" ∧
    lookupS (getOrCreate [] (some "abc") "f3a1" 0).2 "abc" =
      some (ChatSession.init "abc" 0) ∧
    lookupS (getOrCreate [] (some "abc") "f3a1" 0).2 "f3a1" = none := by
  refine ⟨rfl, by decide, rfl, rfl⟩

/-- C3 amended: a freshly generated id is used only when the supplied id is
absent (or empty, Python falsy); a supplied id unknown to the store gets a
fresh session registered under that supplied id; a supplied id already in
the store returns the existing session with the store unchanged. -/
theorem getOrCreate_cases (store : List (String × ChatSession)) (reqId : Option String)
    (freshId : String) (now : Int) (hfresh : lookupS store freshId = none) :
    ((reqId = none ∨ reqId = some "") →
      (getOrCreate store reqId freshId now).1 = freshId ∧
      lookupS (getOrCreate store reqId freshId now).2 freshId =
        some (ChatSession.init freshId now)) ∧
    (∀ s : String, reqId = some s → s ≠ "" → lookupS store s = none →
      (getOrCreate store reqId freshId now).1 = s ∧
      lookupS (getOrCreate store reqId freshId now).2 s =
        some (ChatSession.init s now)) ∧
    (∀ s : String, ∀ sess : ChatSession, reqId = some s → s ≠ "" →
      lookupS store s = some sess →
      getOrCreate store reqId freshId now = (s, store)) := by
  refine ⟨?_, ?_, ?_⟩
  · rintro (rfl | rfl) <;>
      simp [getOrCreate, hfresh,
        lookupS_insertS_self store freshId (ChatSession.init freshId now) hfresh]
  · rintro s rfl hne hnone
    simp [getOrCreate, hne, hnone,
      lookupS_insertS_self store s (ChatSession.init s now) hnone]
  · rintro s sess rfl hne hsome
    simp [getOrCreate, hne, hsome]

/-- Witness for C3 amended, on a one-session store: known id returned as-is,
unknown id registered under itself, absent id registered under the fresh id. -/
theorem getOrCreate_cases_witness :
    ((getOrCreate [("k", ChatSession.init "k" 0)] none "f" 1).1 = "f" ∧
      lookupS (getOrCreate [("k", ChatSession.init "k" 0)] none "f" 1).2 "f" =
        some (ChatSession.init "f" 1)) ∧
    getOrCreate [("k", ChatSession.init "k" 0)] (some "k") "f" 1 =
      ("k", [("k", ChatSession.init "k" 0)]) := by
  have h := getOrCreate_cases [("k", ChatSession.init "k" 0)] none "f" 1 (by decide)
  have h2 := getOrCreate_cases [("k", ChatSession.init "k" 0)] (some "k") "f" 1 (by decide)
  exact ⟨h.1 (Or.inl rfl), h2.2.2 "k" (ChatSession.init "k" 0) rfl (by decide) (by decide)⟩

/-! ## Stale-session sweep (`_cleanup_stale_sessions`, main.py) -/

/-- The staleness test: `(cutoff - s.last_active).total_seconds() >
SESSION_TTL_HOURS * 3600`. -/
def staleP (now : Int) (ttlHours : Nat) (s : ChatSession) : Bool :=
  now - s.last_active > (ttlHours : Int) * 3600

/-- `_cleanup_stale_sessions`: collect the stale ids, delete them from the
dict, return how many were removed. Returns (remaining store, count). -/
def _cleanup_stale_sessions (now : Int) (ttlHours : Nat)
    (store : List (String × ChatSession)) : List (String × ChatSession) × Nat :=
  let stale := store.filter (fun p => staleP now ttlHours p.2)
  (store.filter (fun p => !staleP now ttlHours p.2), stale.length)

theorem filter_length_partition {α : Type} (p : α → Bool) (l : List α) :
    (l.filter (fun a => !p a)).length + (l.filter p).length = l.length := by
  induction l with
  | nil => rfl
  | cons a rest ih =>
    by_cases h : p a <;> simp [List.filter, h] <;> omega

/-- C8 counterexample: with TTL = 0 and one stored session whose age is
exactly zero (`last_active = now`), the sweep removes nothing — the strict
`>` comparison keeps the session, so the returned count is 0 and the store
is not empty, against the claim's count 1 / empty store for "any age". -/
theorem cleanup_ttl_zero_age_zero_retained :
    (_cleanup_stale_sessions 5 0 [("s", ChatSession.init "s" 5)]).2 = 0 ∧
    (_cleanup_stale_sessions 5 0 [("s", ChatSession.init "s" 5)]).1 =
      [("s", ChatSession.init "s" 5)] := by
  constructor <;> rfl

/-- C8 amended: the sweep keeps exactly the sessions whose age is not
strictly greater than TTL·3600 (kept + removed counts partition the store),
and with TTL = 0 and one stored session of strictly positive age the
returned count is 1 and the store is empty afterward; a session of age
exactly 0 is retained. -/
theorem cleanup_stale_exact (now : Int) (ttlHours : Nat)
    (store : List (String × ChatSession)) :
    (∀ p ∈ store, p ∈ (_cleanup_stale_sessions now ttlHours store).1 ↔
        ¬ (now - p.2.last_active > (ttlHours : Int) * 3600)) ∧
    (_cleanup_stale_sessions now ttlHours store).1.length +
        (_cleanup_stale_sessions now ttlHours store).2 = store.length ∧
    (∀ sid : String, ∀ s : ChatSession, store = [(sid, s)] → ttlHours = 0 →
        0 < now - s.last_active →
        (_cleanup_stale_sessions now ttlHours store).2 = 1 ∧
        (_cleanup_stale_sessions now ttlHours store).1 = []) := by
  refine ⟨?_, ?_, ?_⟩
  · intro p hp
    simp [_cleanup_stale_sessions, List.mem_filter, hp, staleP]
  · simpa [_cleanup_stale_sessions] using
      filter_length_partition (fun p => staleP now ttlHours p.2) store
  · intro sid s hstore httl hage
    subst hstore; subst httl
    have hst : staleP now 0 s = true := by
      simp only [staleP, decide_eq_true_eq]
      omega
    simp [_cleanup_stale_sessions, hst]

/-- Witness for C8 amended at a singleton store of age 10 with TTL 0. -/
theorem cleanup_stale_exact_witness :
    (_cleanup_stale_sessions 10 0 [("s", ChatSession.init "s" 0)]).2 = 1 ∧
    (_cleanup_stale_sessions 10 0 [("s", ChatSession.init "s" 0)]).1 = [] :=
  (cleanup_stale_exact 10 0 [("s", ChatSession.init "s" 0)]).2.2 "s"
    (ChatSession.init "s" 0) rfl rfl (by decide)

/-! ## Canvas context update (`update_canvas_context`, main.py) -/

/-- Python `", ".join(...)` / `"\n".join(...)`. -/
def joinSep (sep : String) : List String → String
  | [] => ""
  | [x] => x
  | x :: rest => x ++ sep ++ joinSep sep rest

/-- Python `s.strip()` at `String` level. -/
def pyStripS (s : String) : String := ⟨stripL s.data⟩

/-- Python `str()` as applied by f-string interpolation to dict values:
exact for the string-valued `type`/`text` fields this code path produces,
best-effort for other JSON scalars. -/
def pyFormat : Json → String
  | .str s => s
  | .bool b => if b then "True" else "False"
  | .null => "None"
  | .num q => toString q
  | .arr _ => "[...]"
  | .obj _ => "\x7b...\x7d"

/-- `el.get(k, default)` on a decoded dict. -/
def dictGetD (el : PyDict) (k : String) (d : Json) : Json :=
  (lookupS el k).getD d

/-- `el.get("text", "")` restricted to string values.  A non-string `text`
value makes the real handler raise on `.strip()`; that crash path is not
modelled (no claim exercises it). -/
def dictGetStr (el : PyDict) (k : String) : String :=
  match lookupS el k with
  | some (.str s) => s
  | _ => ""

/-- `type_counts[el_type] = type_counts.get(el_type, 0) + 1`: dicts keep
first-insertion order, so a new key is appended at the end. -/
def bumpCount : List (Json × Nat) → Json → List (Json × Nat)
  | [], t => [(t, 1)]
  | (k, n) :: rest, t =>
    if Json.beq t k then (k, n + 1) :: rest else (k, n) :: bumpCount rest t

/-- One iteration of the `for el in req.elements[:50]` loop: bump the type
count and, for a non-empty stripped text shorter than 200 chars, record
a `- type: "text"` line. -/
def summarizeStep (acc : List (Json × Nat) × List String) (el : PyDict) :
    List (Json × Nat) × List String :=
  let elType := dictGetD el "type" (.str "unknown")
  let counts := bumpCount acc.1 elType
  let text := pyStripS (dictGetStr el "text")
  if text ≠ "" ∧ text.length < 200 then
    (counts, acc.2 ++ ["- " ++ pyFormat elType ++ ": \"" ++ text ++ "\""])
  else (counts, acc.2)

/-- The `elif req.elements:` summary branch of `update_canvas_context`. -/
def summarizeElements (elements : List PyDict) : String :=
  let acc := (elements.take 50).foldl summarizeStep ([], [])
  let countsStr := joinSep ", "
    (acc.1.map (fun p => toString p.2 ++ " " ++ pyFormat p.1 ++ "(s)"))
  let elementsStr := joinSep "\n" (acc.2.take 20)
  if elementsStr ≠ "" then
    "The whiteboard currently has " ++ toString elements.length ++
    " shape(s)/element(s) drawn by the user: " ++ countsStr ++
    ".\nText content written on the whiteboard:\n" ++ elementsStr
  else
    "The whiteboard currently has " ++ toString elements.length ++
    " shape(s)/element(s) drawn by the user: " ++ countsStr ++
    ". There is no text written on the board."

/-- `CanvasContextRequest` (main.py). -/
structure CanvasContextRequest where
  session_id : String
  elements : Option (List PyDict) := none
  description : Option String := none

/-- Python truthiness of an optional string (`if req.description:`). -/
def truthyOptStr : Option String → Bool
  | none => false
  | some s => s != ""

/-- Python truthiness of an optional list (`elif req.elements:`). -/
def truthyOptList {α : Type} : Option (List α) → Bool
  | none => false
  | some l => !l.isEmpty

/-- Outcome of `POST /chat/context`: HTTP 404, or 200 with `context_length`. -/
inductive CtxResponse where
  | notFound
  | ok (context_length : Nat)
deriving Repr, DecidableEq

/-- `update_canvas_context` (main.py): 404 on unknown session; otherwise the
description wins over elements, which win over the empty-board sentinel. -/
def update_canvas_context (store : List (String × ChatSession))
    (req : CanvasContextRequest) : List (String × ChatSession) × CtxResponse :=
  match lookupS store req.session_id with
  | none => (store, .notFound)
  | some session =>
    let newCtx :=
      if truthyOptStr req.description then req.description.getD ""
      else if truthyOptList req.elements then summarizeElements (req.elements.getD [])
      else emptyBoardContext
    (updateS store req.session_id { session with canvas_context := newCtx },
     .ok newCtx.length)

/-- C9: for a `/chat/context` request on an existing session with a
non-empty description string, the session's canvas context is set to exactly
that description (and `context_length` reports its length), and any supplied
elements list is ignored: the result is independent of `elements`. -/
theorem update_context_description_precedence (store : List (String × ChatSession))
    (sid : String) (sess : ChatSession) (desc : String) (elems : Option (List PyDict))
    (hs : lookupS store sid = some sess) (hd : desc ≠ "") :
    lookupS (update_canvas_context store
        { session_id := sid, elements := elems, description := some desc }).1 sid =
      some { sess with canvas_context := desc } ∧
    (update_canvas_context store
        { session_id := sid, elements := elems, description := some desc }).2 =
      .ok desc.length ∧
    (∀ elems2 : Option (List PyDict),
      update_canvas_context store
          { session_id := sid, elements := elems2, description := some desc } =
        update_canvas_context store
          { session_id := sid, elements := elems, description := some desc }) := by
  have htr : truthyOptStr (some desc) = true := by
    simp only [truthyOptStr, bne_iff_ne]
    exact hd
  refine ⟨?_, ?_, ?_⟩
  · simp only [update_canvas_context, hs, htr, if_true, Option.getD_some]
    exact lookupS_updateS_self store sid sess _ hs
  · simp [update_canvas_context, hs, htr]
  · intro elems2
    simp [update_canvas_context, hs, htr]

/-- Witness for C9: a one-session store, description `"two boxes"`, and a
one-element list that the handler must ignore. -/
theorem update_context_description_precedence_witness :
    lookupS (update_canvas_context [("s", ChatSession.init "s" 0)]
        { session_id := "s", elements := some [[("type", Json.str "rectangle")]],
          description := some "two boxes" }).1 "s" =
      some { ChatSession.init "s" 0 with canvas_context := "two boxes" } ∧
    (update_canvas_context [("s", ChatSession.init "s" 0)]
        { session_id := "s", elements := some [[("type", Json.str "rectangle")]],
          description := some "two boxes" }).2 = .ok 9 := by
  have h := update_context_description_precedence [("s", ChatSession.init "s" 0)] "s"
    (ChatSession.init "s" 0) "two boxes" (some [[("type", Json.str "rectangle")]])
    rfl (by decide)
  exact ⟨h.1, h.2.1⟩

/-! ## Session clearing (`clear_session`, main.py) -/

/-- Outcome of `POST /chat/clear`: both branches answer HTTP 200. -/
inductive ClearResponse where
  | cleared
  | alreadyClean
deriving Repr, DecidableEq

/-- `clear_session` (main.py): reset history and canvas context of an
existing session; no-op answer on an unknown id. -/
def clear_session (store : List (String × ChatSession)) (sid : String) :
    List (String × ChatSession) × ClearResponse :=
  match lookupS store sid with
  | some s =>
    (updateS store sid { s with messages := [], canvas_context := emptyBoardContext },
     .cleared)
  | none => (store, .alreadyClean)

/-- C10: `/chat/clear` on an existing session empties its message list and
resets its canvas context to the empty-whiteboard sentinel, while the session
stays registered under the same id with `created_at` and `last_active`
unchanged, and every other session is untouched. -/
theorem clear_session_resets_only_history_and_context
    (store : List (String × ChatSession)) (sid : String) (sess : ChatSession)
    (hs : lookupS store sid = some sess) :
    lookupS (clear_session store sid).1 sid =
      some { session_id := sess.session_id, messages := [],
             canvas_context := emptyBoardContext,
             created_at := sess.created_at, last_active := sess.last_active } ∧
    (∀ other : String, other ≠ sid →
      lookupS (clear_session store sid).1 other = lookupS store other) ∧
    (clear_session store sid).2 = .cleared := by
  refine ⟨?_, ?_, ?_⟩
  · simp only [clear_session, hs]
    exact lookupS_updateS_self store sid sess _ hs
  · intro other hother
    simp only [clear_session, hs]
    exact lookupS_updateS_other store sid other _ hother
  · simp [clear_session, hs]

/-- Witness for C10 on a two-session store with non-trivial history,
context and timestamps. -/
theorem clear_session_resets_only_history_and_context_witness :
    lookupS (clear_session
        [("a", { session_id := "a",
                 messages := [{ role := .user, content := "hi" }],
                 canvas_context := "ctx", created_at := 3, last_active := 7 }),
         ("b", ChatSession.init "b" 1)] "a").1 "a" =
      some { session_id := "a", messages := [], canvas_context := emptyBoardContext,
             created_at := 3, last_active := 7 } ∧
    lookupS (clear_session
        [("a", { session_id := "a",
                 messages := [{ role := .user, content := "hi" }],
                 canvas_context := "ctx", created_at := 3, last_active := 7 }),
         ("b", ChatSession.init "b" 1)] "a").1 "b" =
      some (ChatSession.init "b" 1) := by
  have h := clear_session_resets_only_history_and_context
    [("a", { session_id := "a",
             messages := [{ role := .user, content := "hi" }],
             canvas_context := "ctx", created_at := 3, last_active := 7 }),
     ("b", ChatSession.init "b" 1)] "a"
    { session_id := "a", messages := [{ role := .user, content := "hi" }],
      canvas_context := "ctx", created_at := 3, last_active := 7 } rfl
  exact ⟨h.1, (h.2.1 "b" (by decide)).trans rfl⟩

/-! ## Reasoning-block markup (`strip_think_tags` and the stream filter) -/

def thinkOpenTag : List Char := "<think>".data

def thinkCloseTag : List Char := "</think>".data

/-- The repeated non-greedy substitution performed by
`_THINK_PATTERN.sub("", text)`: each match runs from a `<think>` to the
nearest following `</think>`; if no `</think>` follows the first `<think>`,
nothing matches. `fuel` bounds the recursion (`length + 1` always suffices). -/
def subThink : Nat → List Char → List Char
  | 0, l => l
  | fuel + 1, l =>
    match splitFirst thinkOpenTag l with
    | none => l
    | some (before, rest) =>
      match splitFirst thinkCloseTag rest with
      | none => l
      | some (_, rest2) => before ++ subThink fuel rest2

/-- `strip_think_tags` (main.py): delete every `<think>...</think>` block,
then `lstrip("\n")`. -/
def strip_think_tags (l : List Char) : List Char :=
  (subThink (l.length + 1) l).dropWhile (fun c => c == '\n')

/-- One chunk of the phase-1 streaming loop in `generate` (main.py): skip
empty tokens, raise the `inside_think` flag on an open marker, suppress
inside a think block, and on a close marker emit the suffix after the first
`</think>` when its `strip()` is non-empty. Returns the new flag and the
token payloads emitted for this chunk. -/
def filterStep (inside : Bool) (token : List Char) : Bool × List (List Char) :=
  if token.isEmpty then (inside, [])
  else
    let inside1 := if containsL thinkOpenTag token then true else inside
    if inside1 then
      if containsL thinkCloseTag token then
        let after :=
          match splitFirst thinkCloseTag token with
          | some (_, a) => a
          | none => []
        (false, if hasNonWs after then [after] else [])
      else (inside1, [])
    else (inside1, [token])

/-- The streaming loop folded over a chunk sequence. -/
def runFilter (inside : Bool) : List (List Char) → Bool × List (List Char)
  | [] => (inside, [])
  | t :: ts =>
    let s1 := filterStep inside t
    let s2 := runFilter s1.1 ts
    (s2.1, s1.2 ++ s2.2)

/-- Concatenation of all token-event payloads emitted for a chunk sequence
(the stream starts in NORMAL state, `inside_think = False`). -/
def emittedConcat (chunks : List (List Char)) : List Char :=
  (runFilter false chunks).2.flatten

/-! ## The `/chat` turn (`chat` endpoint + `generate`, main.py) -/

/-- Outcome of the phase-1 upstream stream: the ordered chunk contents plus
the accumulated side-channel reasoning payloads on success, or a timeout /
transport failure (possibly after some chunks arrived) on failure. -/
inductive StreamOutcome where
  | ok (chunks : List (List Char)) (reasonings : List String)
  | failed (partialChunks : List (List Char))

/-- The SSE events of the `/chat` stream. -/
inductive SseEvent where
  | token (t : List Char)
  | done (html : String) (session_id : String)
  | canvasAction (elements : List Json)
  | toolAction (tool : String)
  | errorEvent (session_id : String)

/-- The token events produced by the phase-1 loop on a chunk sequence. -/
def tokenEvents (chunks : List (List Char)) : List SseEvent :=
  (runFilter false chunks).2.map SseEvent.token

/-- One `/chat` turn on an existing session (main.py `chat` + `generate`):
`get_chain_input` appends the user message before the stream is opened; on
stream success the chunks are filtered into token events, the raw chunks are
concatenated, think-markup is stripped, the assistant message (with the
accumulated reasoning side channel, verbatim when non-empty) is appended,
the history trimmed, and a `done` event emitted; on stream failure an
`error` event is emitted after whatever token events were already out, and
the session stays as `get_chain_input` left it.  `mdToHtml` abstracts the
external `markdown` library behind `md_to_html`.  Phase 2 (tool routing /
canvas generation) follows the `done` event, never touches `messages`, and
is modelled separately by `detect_tool_intent` and `parse_canvas_json`. -/
def chatTurn (maxH : Nat) (mdToHtml : String → String) (s : ChatSession)
    (userInput : String) (now : Int) (outcome : StreamOutcome) :
    ChatSession × List SseEvent :=
  let s1 := (s.get_chain_input maxH userInput now).1
  match outcome with
  | .failed partialChunks =>
    (s1, tokenEvents partialChunks ++ [.errorEvent s1.session_id])
  | .ok chunks reasonings =>
    let fullResponse := chunks.flatten
    let cleanResponse : String := ⟨strip_think_tags fullResponse⟩
    let finalReasoning := joinSep "" reasonings
    let aiMsg : PyMsg :=
      { role := .assistant, content := cleanResponse,
        reasoning_details := if finalReasoning ≠ "" then some finalReasoning else none }
    let s2 := { s1 with messages := s1.messages ++ [aiMsg] }
    let s3 := s2.trim_history maxH
    (s3, tokenEvents chunks ++ [.done (mdToHtml cleanResponse) s1.session_id])

/-- A sequence of `/chat` turns on one session: each item is the user input,
the wall-clock instant and the upstream outcome of that turn. -/
def runTurns (maxH : Nat) (mdToHtml : String → String) :
    ChatSession → List (String × Int × StreamOutcome) → ChatSession
  | s, [] => s
  | s, (input, now, outcome) :: rest =>
    runTurns maxH mdToHtml (chatTurn maxH mdToHtml s input now outcome).1 rest

theorem runTurns_append (maxH : Nat) (f : String → String) (s : ChatSession)
    (l1 l2 : List (String × Int × StreamOutcome)) :
    runTurns maxH f s (l1 ++ l2) = runTurns maxH f (runTurns maxH f s l1) l2 := by
  induction l1 generalizing s with
  | nil => rfl
  | cons t rest ih =>
    obtain ⟨input, now, outcome⟩ := t
    simp [runTurns, ih]

/-- C2 counterexample: a turn whose upstream stream fails does not leave the
message history exactly as it was before the request: starting from an empty
history, the failed turn leaves the user message in place. -/
theorem failed_turn_history_not_restored :
    ((chatTurn 20 id (ChatSession.init "s" 0) "hi" 1 (.failed [])).1).messages =
      [{ role := .user, content := "hi" }] ∧
    ([{ role := .user, content := "hi" }] : List PyMsg) ≠ [] := by
  exact ⟨rfl, by decide⟩

/-- C2 amended: when the upstream stream times out or fails, an error event
is emitted (as the final event, after any token events already streamed) and
no assistant message is appended — the history is exactly the pre-request
history plus the just-appended user message, and the canvas context is
untouched — so the session is intact for retry up to that user message. -/
theorem failed_turn_appends_only_user_message (maxH : Nat) (mdToHtml : String → String)
    (s : ChatSession) (input : String) (now : Int) (partialChunks : List (List Char)) :
    ((chatTurn maxH mdToHtml s input now (.failed partialChunks)).1).messages =
      s.messages ++ [{ role := .user, content := input }] ∧
    ((chatTurn maxH mdToHtml s input now (.failed partialChunks)).1).canvas_context =
      s.canvas_context ∧
    ((chatTurn maxH mdToHtml s input now (.failed partialChunks)).1).session_id =
      s.session_id ∧
    ((chatTurn maxH mdToHtml s input now (.failed partialChunks)).2).getLast? =
      some (.errorEvent s.session_id) := by
  refine ⟨rfl, rfl, rfl, ?_⟩
  simp [chatTurn, ChatSession.get_chain_input]

/-- C6 counterexample: with the default configured maximum of 20, a session
subjected to 41 turns whose upstream streams all fail holds 41 messages —
each failed turn appends a user message and never reaches the trim — which
exceeds 2 × 20. -/
theorem history_bound_violated_by_failed_turns :
    ((runTurns 20 id (ChatSession.init "s" 0)
        (List.replicate 41 ("x", (0 : Int), StreamOutcome.failed []))).messages).length
      = 41 ∧ ¬ (41 ≤ 2 * 20) := by
  exact ⟨by decide, by decide⟩

theorem trim_history_le (maxH : Nat) (hmax : 0 < maxH) (s : ChatSession) :
    (s.trim_history maxH).messages.length ≤ maxH := by
  unfold ChatSession.trim_history
  by_cases h : s.messages.length > maxH
  · have hne : maxH ≠ 0 := Nat.pos_iff_ne_zero.mp hmax
    simp [h, pyTail, hne]
    omega
  · simp [h]
    omega

/-- C6 amended: the trim invariant does hold after every assistant-append,
so after any sequence of turns whose final turn's upstream stream succeeded,
the stored message count is at most the configured maximum (hence at most
2 × it), for any positive configured maximum; but a turn whose stream fails
appends a user message without trimming, so an unbroken run of failed turns
grows the history without bound (see the counterexample). -/
theorem history_bound_after_ok_turn (maxH : Nat) (mdToHtml : String → String)
    (s : ChatSession) (turns : List (String × Int × StreamOutcome))
    (input : String) (now : Int) (chunks : List (List Char)) (rds : List String)
    (hmax : 0 < maxH) :
    ((runTurns maxH mdToHtml s
        (turns ++ [(input, now, .ok chunks rds)])).messages).length ≤ 2 * maxH := by
  rw [runTurns_append]
  have h1 : ((chatTurn maxH mdToHtml (runTurns maxH mdToHtml s turns) input now
      (.ok chunks rds)).1).messages.length ≤ maxH :=
    trim_history_le maxH hmax _
  calc ((runTurns maxH mdToHtml (runTurns maxH mdToHtml s turns)
          [(input, now, .ok chunks rds)]).messages).length
      = ((chatTurn maxH mdToHtml (runTurns maxH mdToHtml s turns) input now
          (.ok chunks rds)).1).messages.length := rfl
    _ ≤ maxH := h1
    _ ≤ 2 * maxH := by omega

/-- Witness for C6 amended: maximum 2, one failed turn then one successful
turn; the final history length is within 2 × 2. -/
theorem history_bound_after_ok_turn_witness :
    0 < 2 ∧
    ((runTurns 2 id (ChatSession.init "s" 0)
        ([("a", (1 : Int), StreamOutcome.failed [])] ++
         [("b", (2 : Int), StreamOutcome.ok ["hello".data] [])])).messages).length
      ≤ 2 * 2 :=
  ⟨by decide,
   history_bound_after_ok_turn 2 id (ChatSession.init "s" 0)
     [("a", (1 : Int), StreamOutcome.failed [])] "b" 2 ["hello".data] [] (by decide)⟩

/-! ## Correctness of the streaming reasoning filter (C1) -/

theorem thinkOpenTag_eq : thinkOpenTag = ['<', 't', 'h', 'i', 'n', 'k', '>'] := rfl

theorem thinkCloseTag_eq : thinkCloseTag = ['<', '/', 't', 'h', 'i', 'n', 'k', '>'] := rfl

theorem isPrefixL_iff_take (n : List Char) : ∀ l : List Char,
    isPrefixL n l = true ↔ l.take n.length = n := by
  induction n with
  | nil => intro l; simp [isPrefixL]
  | cons x xs ih =>
    intro l
    cases l with
    | nil => simp [isPrefixL]
    | cons y ys =>
      simp only [isPrefixL, Bool.and_eq_true, beq_iff_eq, ih, List.length_cons,
        List.take_succ_cons, List.cons.injEq]
      constructor
      · rintro ⟨rfl, h⟩; exact ⟨rfl, h⟩
      · rintro ⟨rfl, h⟩; exact ⟨rfl, h⟩

theorem isPrefixL_append_self (n r : List Char) : isPrefixL n (n ++ r) = true := by
  induction n with
  | nil => rfl
  | cons x xs ih => simp [isPrefixL, ih]

theorem isPrefixL_append_left {n l : List Char} (r : List Char)
    (h : isPrefixL n l = true) : isPrefixL n (l ++ r) = true := by
  induction n generalizing l with
  | nil => rfl
  | cons x xs ih =>
    cases l with
    | nil => simp [isPrefixL] at h
    | cons y ys =>
      simp only [isPrefixL, Bool.and_eq_true, beq_iff_eq] at h
      simp only [List.cons_append, isPrefixL, Bool.and_eq_true, beq_iff_eq]
      exact ⟨h.1, ih h.2⟩

theorem containsL_of_isPrefixL {n l : List Char} (h : isPrefixL n l = true) :
    containsL n l = true := by
  cases l with
  | nil =>
    cases n with
    | nil => rfl
    | cons x xs => simp [isPrefixL] at h
  | cons c rest => simp [containsL, h]

theorem containsL_cons_of_containsL (n : List Char) (c : Char) {rest : List Char}
    (h : containsL n rest = true) : containsL n (c :: rest) = true := by
  simp [containsL, h]

theorem containsL_append_right (n : List Char) (b : List Char) {l : List Char}
    (h : containsL n l = true) : containsL n (b ++ l) = true := by
  induction b with
  | nil => exact h
  | cons c cs ih => exact containsL_cons_of_containsL n c ih

/-- A marker that occurs nowhere in `b` extended by its own proper prefix is
first found, inside `b ++ n ++ rest`, exactly at the `b`/`n` boundary: the
split yields `b` and `rest`. -/
theorem splitFirst_at_boundary (n : List Char) (hn : n ≠ []) :
    ∀ (b rest : List Char),
      containsL n (b ++ n.take (n.length - 1)) = false →
      splitFirst n (b ++ n ++ rest) = some (b, rest) := by
  intro b
  induction b with
  | nil =>
    intro rest _
    cases n with
    | nil => exact absurd rfl hn
    | cons x xs =>
      have hpre : isPrefixL (x :: xs) ((x :: xs) ++ rest) = true := isPrefixL_append_self _ _
      have hdrop : ((x :: xs) ++ rest).drop (x :: xs).length = rest := List.drop_left _ _
      simp only [List.cons_append] at hpre hdrop
      simp only [List.nil_append, List.cons_append]
      simp [splitFirst, hpre, hdrop]
  | cons c cs ih =>
    intro rest hb
    have hb' : isPrefixL n ((c :: cs) ++ n.take (n.length - 1)) = false ∧
        containsL n (cs ++ n.take (n.length - 1)) = false := by
      have := hb
      simp only [List.cons_append, containsL, Bool.or_eq_false_iff] at this
      exact this
    have htake : ((c :: cs) ++ (n ++ rest)).take n.length
        = ((c :: cs) ++ n.take (n.length - 1)).take n.length := by
      rw [List.take_append_eq_append_take, List.take_append_eq_append_take]
      rw [List.take_append_eq_append_take, List.take_take]
      have h0 : n.length - (c :: cs).length - n.length = 0 := by omega
      have hmin : min (n.length - (c :: cs).length) (n.length - 1)
          = n.length - (c :: cs).length := by
        apply min_eq_left
        simp only [List.length_cons]
        omega
      rw [h0, hmin]
      simp
    have hguard : isPrefixL n ((c :: cs) ++ (n ++ rest)) = false := by
      rw [Bool.eq_false_iff]
      intro htrue
      rw [isPrefixL_iff_take, htake, ← isPrefixL_iff_take] at htrue
      rw [htrue] at hb'
      exact Bool.true_eq_false.mp hb'.1
    have hrec := ih rest hb'.2
    simp only [List.cons_append, List.append_assoc] at hguard ⊢
    simp only [splitFirst, hguard, Bool.false_eq_true, if_false]
    simp only [List.append_assoc] at hrec
    rw [hrec]

theorem runFilter_append (inside : Bool) (l1 l2 : List (List Char)) :
    runFilter inside (l1 ++ l2) =
      ((runFilter (runFilter inside l1).1 l2).1,
       (runFilter inside l1).2 ++ (runFilter (runFilter inside l1).1 l2).2) := by
  induction l1 generalizing inside with
  | nil => simp [runFilter]
  | cons t ts ih => simp [runFilter, ih]

/-- NORMAL-state passthrough: chunks free of the open marker stream through
unchanged (empty tokens are skipped but contribute nothing to the text). -/
theorem runFilter_no_think (chunks : List (List Char))
    (h : ∀ c ∈ chunks, containsL thinkOpenTag c = false) :
    (runFilter false chunks).1 = false ∧
    (runFilter false chunks).2.flatten = chunks.flatten := by
  induction chunks with
  | nil => exact ⟨rfl, rfl⟩
  | cons t ts ih =>
    have ht := h t (by simp)
    have hts := ih (fun c hc => h c (by simp [hc]))
    cases t with
    | nil => simpa [runFilter, filterStep] using hts
    | cons x xs =>
      refine ⟨?_, ?_⟩ <;> simp [runFilter, filterStep, ht, hts.1, hts.2]

/-- INSIDE_BLOCK suppression: chunks free of the close marker emit nothing
and leave the filter inside the block. -/
theorem runFilter_inside_suppressed (chunks : List (List Char))
    (h : ∀ c ∈ chunks, containsL thinkCloseTag c = false) :
    runFilter true chunks = (true, []) := by
  induction chunks with
  | nil => rfl
  | cons t ts ih =>
    have ht := h t (by simp)
    have hts := ih (fun c hc => h c (by simp [hc]))
    cases t with
    | nil => simpa [runFilter, filterStep] using hts
    | cons x xs => simp [runFilter, filterStep, ht, hts]

/-- A NORMAL-state chunk that begins with the open marker and has no close
marker flips the filter inside the block and emits nothing — including any
text of the chunk standing before the marker elsewhere (none here since the
marker is at the chunk head). -/
theorem filterStep_open (a : List Char)
    (hnoclose : containsL thinkCloseTag (thinkOpenTag ++ a) = false) :
    filterStep false (thinkOpenTag ++ a) = (true, []) := by
  have hopen : containsL thinkOpenTag (thinkOpenTag ++ a) = true :=
    containsL_of_isPrefixL (isPrefixL_append_self _ _)
  simp [filterStep, thinkOpenTag_eq] at hopen hnoclose ⊢
  simp [hopen, hnoclose]

/-- An INSIDE_BLOCK chunk containing the close marker (first occurrence at
the `b` boundary) leaves the block and emits the suffix after the marker
exactly when that suffix strips to something non-empty. -/
theorem filterStep_close (b after : List Char)
    (hb : containsL thinkCloseTag
        (b ++ thinkCloseTag.take (thinkCloseTag.length - 1)) = false) :
    filterStep true (b ++ (thinkCloseTag ++ after)) =
      (false, if hasNonWs after then [after] else []) := by
  have hcontains : containsL thinkCloseTag (b ++ (thinkCloseTag ++ after)) = true :=
    containsL_append_right _ b (containsL_of_isPrefixL (isPrefixL_append_self _ _))
  have hsplit : splitFirst thinkCloseTag (b ++ thinkCloseTag ++ after) = some (b, after) :=
    splitFirst_at_boundary thinkCloseTag (by decide) b after hb
  rw [List.append_assoc] at hsplit
  have hne : (b ++ (thinkCloseTag ++ after)).isEmpty = false := by
    cases b <;> simp [thinkCloseTag_eq]
  simp [filterStep, hne, hcontains, hsplit]

/-- A NORMAL-state chunk that begins with the open marker and contains the
close marker (first occurrence at the end of `g`) enters and leaves the
block within one chunk, emitting the suffix after the close marker exactly
when that suffix strips to something non-empty. -/
theorem filterStep_open_close (g after : List Char)
    (hopen : isPrefixL thinkOpenTag g = true)
    (hg : containsL thinkCloseTag
        (g ++ thinkCloseTag.take (thinkCloseTag.length - 1)) = false) :
    filterStep false (g ++ (thinkCloseTag ++ after)) =
      (false, if hasNonWs after then [after] else []) := by
  have hcontainsOpen : containsL thinkOpenTag (g ++ (thinkCloseTag ++ after)) = true :=
    containsL_of_isPrefixL (isPrefixL_append_left _ hopen)
  have hcontainsClose : containsL thinkCloseTag (g ++ (thinkCloseTag ++ after)) = true :=
    containsL_append_right _ g (containsL_of_isPrefixL (isPrefixL_append_self _ _))
  have hsplit : splitFirst thinkCloseTag (g ++ thinkCloseTag ++ after) = some (g, after) :=
    splitFirst_at_boundary thinkCloseTag (by decide) g after hg
  rw [List.append_assoc] at hsplit
  have hne : (g ++ (thinkCloseTag ++ after)).isEmpty = false := by
    cases g with
    | nil => simp [thinkOpenTag_eq, isPrefixL] at hopen
    | cons x xs => simp
  simp [filterStep, hne, hcontainsOpen, hcontainsClose, hsplit]

/-- The filter over a run with the open and close markers in two distinct
chunks: only the NORMAL-state text and the close-chunk suffix survive. -/
theorem runFilter_pair_two_chunks (pre mid post : List (List Char))
    (a b after : List Char)
    (hpre : ∀ c ∈ pre, containsL thinkOpenTag c = false)
    (hopenChunk : containsL thinkCloseTag (thinkOpenTag ++ a) = false)
    (hmid : ∀ c ∈ mid, containsL thinkCloseTag c = false)
    (hcloseChunk : containsL thinkCloseTag
        (b ++ thinkCloseTag.take (thinkCloseTag.length - 1)) = false)
    (hpost : ∀ c ∈ post, containsL thinkOpenTag c = false)
    (hafter : after = [] ∨ hasNonWs after = true) :
    emittedConcat (pre ++ [thinkOpenTag ++ a] ++ mid ++ [b ++ thinkCloseTag ++ after] ++ post)
      = pre.flatten ++ after ++ post.flatten := by
  have h1 := runFilter_no_think pre hpre
  have ho : runFilter false [thinkOpenTag ++ a] = (true, []) := by
    simp [runFilter, filterStep_open a hopenChunk]
  have h3 := runFilter_inside_suppressed mid hmid
  have hc : runFilter true [b ++ thinkCloseTag ++ after] =
      (false, if hasNonWs after then [after] else []) := by
    rw [List.append_assoc]
    simp [runFilter, filterStep_close b after hcloseChunk]
  have h5 := runFilter_no_think post hpost
  show (runFilter false (pre ++ [thinkOpenTag ++ a] ++ mid ++
      [b ++ thinkCloseTag ++ after] ++ post)).2.flatten = _
  have e1 : pre ++ [thinkOpenTag ++ a] ++ mid ++ [b ++ thinkCloseTag ++ after] ++ post
      = pre ++ ([thinkOpenTag ++ a] ++ (mid ++ ([b ++ thinkCloseTag ++ after] ++ post))) := by
    simp [List.append_assoc]
  rw [e1, runFilter_append, h1.1, runFilter_append, ho, runFilter_append, h3,
    runFilter_append, hc]
  simp only [List.append_nil, List.nil_append, List.flatten_append]
  rw [h1.2, h5.2]
  rcases hafter with rfl | hnw
  · simp [hasNonWs]
  · simp [hnw]

/-- The filter over a run whose single middle chunk holds the whole marker
pair (open marker at the chunk head). -/
theorem runFilter_pair_same_chunk (pre post : List (List Char)) (a after : List Char)
    (hpre : ∀ c ∈ pre, containsL thinkOpenTag c = false)
    (hg : containsL thinkCloseTag
        ((thinkOpenTag ++ a) ++ thinkCloseTag.take (thinkCloseTag.length - 1)) = false)
    (hpost : ∀ c ∈ post, containsL thinkOpenTag c = false)
    (hafter : after = [] ∨ hasNonWs after = true) :
    emittedConcat (pre ++ [thinkOpenTag ++ a ++ thinkCloseTag ++ after] ++ post)
      = pre.flatten ++ after ++ post.flatten := by
  have h1 := runFilter_no_think pre hpre
  have hoc : runFilter false [thinkOpenTag ++ a ++ thinkCloseTag ++ after] =
      (false, if hasNonWs after then [after] else []) := by
    have hstep := filterStep_open_close (thinkOpenTag ++ a) after
      (isPrefixL_append_self _ _) hg
    rw [List.append_assoc] at hstep
    simp [runFilter, hstep]
  have h5 := runFilter_no_think post hpost
  show (runFilter false (pre ++ [thinkOpenTag ++ a ++ thinkCloseTag ++ after] ++ post)).2.flatten = _
  have e1 : pre ++ [thinkOpenTag ++ a ++ thinkCloseTag ++ after] ++ post
      = pre ++ ([thinkOpenTag ++ a ++ thinkCloseTag ++ after] ++ post) := by
    simp [List.append_assoc]
  rw [e1, runFilter_append, h1.1, runFilter_append, hoc]
  simp only [List.append_nil, List.nil_append, List.flatten_append]
  rw [h1.2, h5.2]
  rcases hafter with rfl | hnw
  · simp [hasNonWs]
  · simp [hnw]

/-- C1 amended: for a chunk sequence whose concatenation contains exactly
one well-formed marker pair, with the open marker at the head of its chunk
(the code drops, rather than passes through, any text standing before the
open marker in the same chunk) and with the text after the close marker in
its chunk either empty or surviving `after.strip()` (a whitespace-only
suffix is swallowed), the concatenation of the emitted token events equals
the concatenation of the input chunks with the marker span (inclusive)
removed.  Both marker placements are covered: open and close markers in two
distinct chunks, or the whole pair inside one chunk.  The second conclusion
identifies the right-hand side as exactly the marker-stripped input
concatenation. -/
theorem stream_filter_one_pair_cases (pre mid post : List (List Char))
    (a b after : List Char) (chunks : List (List Char))
    (hpre : ∀ c ∈ pre, containsL thinkOpenTag c = false)
    (_hpreClose : ∀ c ∈ pre, containsL thinkCloseTag c = false)
    (hpost : ∀ c ∈ post, containsL thinkOpenTag c = false)
    (_hpostClose : ∀ c ∈ post, containsL thinkCloseTag c = false)
    (hafter : after = [] ∨ hasNonWs after = true)
    (hshape :
      (chunks = pre ++ [thinkOpenTag ++ a] ++ mid ++ [b ++ thinkCloseTag ++ after] ++ post ∧
        containsL thinkCloseTag (thinkOpenTag ++ a) = false ∧
        (∀ c ∈ mid, containsL thinkCloseTag c = false) ∧
        (∀ c ∈ mid, containsL thinkOpenTag c = false) ∧
        containsL thinkCloseTag
          (b ++ thinkCloseTag.take (thinkCloseTag.length - 1)) = false) ∨
      (chunks = pre ++ [thinkOpenTag ++ a ++ thinkCloseTag ++ after] ++ post ∧
        containsL thinkCloseTag
          ((thinkOpenTag ++ a) ++ thinkCloseTag.take (thinkCloseTag.length - 1)) = false)) :
    emittedConcat chunks = pre.flatten ++ after ++ post.flatten ∧
    ∃ inner : List Char, chunks.flatten =
      pre.flatten ++ (thinkOpenTag ++ inner ++ thinkCloseTag) ++ after ++ post.flatten := by
  rcases hshape with ⟨rfl, hopenChunk, hmid, -, hcloseChunk⟩ | ⟨rfl, hg⟩
  · refine ⟨runFilter_pair_two_chunks pre mid post a b after
      hpre hopenChunk hmid hcloseChunk hpost hafter, a ++ mid.flatten ++ b, ?_⟩
    simp [List.flatten_append, List.append_assoc]
  · refine ⟨runFilter_pair_same_chunk pre post a after hpre hg hpost hafter, a, ?_⟩
    simp [List.flatten_append, List.append_assoc]

/-- C1 counterexample: the chunk pair `["A<think>", "</think>"]` concatenates
to `"A<think></think>"`, whose marker-stripped form is `"A"`; but the code
raises `inside_think` on seeing the open marker anywhere in the chunk and
suppresses the whole chunk, so the `"A"` prefix is dropped and nothing at
all is emitted. -/
theorem stream_filter_drops_text_before_open_marker :
    emittedConcat ["A<think>".data, "</think>".data] = [] ∧
    strip_think_tags (["A<think>".data, "</think>".data].flatten) = "A".data ∧
    ([] : List Char) ≠ "A".data := by
  refine ⟨by decide, by decide, by decide⟩

/-- Witness for C1 amended, at the single-chunk scenario
`["<think>plan</think>Hello"]`: the emitted text is exactly `"Hello"`. -/
theorem stream_filter_one_pair_cases_witness :
    emittedConcat ["<think>plan</think>Hello".data] = "Hello".data := by
  have h := stream_filter_one_pair_cases [] [] [] "plan".data [] "Hello".data
    ["<think>plan</think>Hello".data]
    (by simp) (by simp) (by simp) (by simp) (Or.inr (by decide))
    (Or.inr ⟨by decide, by decide⟩)
  exact h.1.trans (by decide)

/-! ## `json.loads` (Python standard library)

A decoder for the JSON fragment relevant here: null/true/false, strings
with the single-character escapes, numbers (integer, fraction, exponent),
arrays and objects, surrounding whitespace, and rejection of trailing
data.  Not modelled: `\uXXXX` escapes and the non-standard
`NaN/Infinity` literals (no claim exercises them).  Objects are built
with dict semantics: first-occurrence key position, last-occurrence
value. -/

def isJsonWs (c : Char) : Bool :=
  c == ' ' || c == '\t' || c == '\n' || c == '\r'

def skipJsonWs (l : List Char) : List Char := l.dropWhile isJsonWs

def digitVal (c : Char) : Nat := c.toNat - '0'.toNat

def takeDigits : List Char → List Char × List Char
  | [] => ([], [])
  | c :: rest =>
    if c.isDigit then
      let p := takeDigits rest
      (c :: p.1, p.2)
    else ([], c :: rest)

def digitsToNat (l : List Char) : Nat :=
  l.foldl (fun acc c => acc * 10 + digitVal c) 0

def parseFrac : List Char → Option (Option Rat × List Char)
  | '.' :: r =>
    let p := takeDigits r
    if p.1.isEmpty then none
    else some (some ((digitsToNat p.1 : Rat) / (10 : Rat) ^ p.1.length), p.2)
  | l => some (none, l)

def parseExp : List Char → Option (Int × List Char)
  | c :: r =>
    if c == 'e' || c == 'E' then
      let sr := match r with
        | '+' :: r2 => ((1 : Int), r2)
        | '-' :: r2 => ((-1 : Int), r2)
        | _ => ((1 : Int), r)
      let p := takeDigits sr.2
      if p.1.isEmpty then none else some (sr.1 * (digitsToNat p.1 : Int), p.2)
    else some (0, c :: r)
  | [] => some (0, [])

def parseNumber (l : List Char) : Option (Rat × List Char) :=
  let sp : Bool × List Char := match l with
    | '-' :: r => (true, r)
    | _ => (false, l)
  let p := takeDigits sp.2
  if p.1.isEmpty then none
  else
    match parseFrac p.2 with
    | none => none
    | some (fr, l3) =>
      match parseExp l3 with
      | none => none
      | some (e, l4) =>
        let base : Rat :=
          match fr with
          | none => (digitsToNat p.1 : Rat)
          | some f => (digitsToNat p.1 : Rat) + f
        let mag : Rat := if e = 0 then base else base * (10 : Rat) ^ e
        some (if sp.1 then -mag else mag, l4)

def escChar (e : Char) : Option Char :=
  if e == '"' then some '"'
  else if e == '\\' then some '\\'
  else if e == '/' then some '/'
  else if e == 'n' then some '\n'
  else if e == 't' then some '\t'
  else if e == 'r' then some '\r'
  else if e == 'b' then some '\x08'
  else if e == 'f' then some '\x0c'
  else none

/-- Decode the body of a JSON string after the opening quote, up to the
closing quote; returns the content and the remaining input. -/
def parseJString : List Char → Option (List Char × List Char)
  | [] => none
  | '"' :: r => some ([], r)
  | '\\' :: rest =>
    match rest with
    | [] => none
    | e :: r =>
      match escChar e with
      | none => none
      | some c =>
        match parseJString r with
        | none => none
        | some (s, rem) => some (c :: s, rem)
  | c :: r =>
    match parseJString r with
    | none => none
    | some (s, rem) => some (c :: s, rem)

/-- Python dict insertion (`d[k] = v`): first-occurrence position keeps the
slot, the value is overwritten. -/
def dictInsert : List (String × Json) → String → Json → List (String × Json)
  | [], k, v => [(k, v)]
  | (k0, v0) :: rest, k, v =>
    if k = k0 then (k0, v) :: rest else (k0, v0) :: dictInsert rest k v

def buildDict (fields : List (String × Json)) : List (String × Json) :=
  fields.foldl (fun d p => dictInsert d p.1 p.2) []

mutual

def parseJsonVal : Nat → List Char → Option (Json × List Char)
  | 0, _ => none
  | fuel + 1, l =>
    match skipJsonWs l with
    | 'n' :: r => if isPrefixL "ull".data r then some (.null, r.drop 3) else none
    | 't' :: r => if isPrefixL "rue".data r then some (.bool true, r.drop 3) else none
    | 'f' :: r => if isPrefixL "alse".data r then some (.bool false, r.drop 4) else none
    | '"' :: r =>
      match parseJString r with
      | none => none
      | some (s, rem) => some (.str ⟨s⟩, rem)
    | '[' :: r =>
      match skipJsonWs r with
      | ']' :: r2 => some (.arr [], r2)
      | r1 =>
        match parseJsonItems fuel r1 with
        | none => none
        | some (items, rem) => some (.arr items, rem)
    | '\x7b' :: r =>
      match skipJsonWs r with
      | '\x7d' :: r2 => some (.obj [], r2)
      | r1 =>
        match parseJsonFields fuel r1 with
        | none => none
        | some (fs, rem) => some (.obj (buildDict fs), rem)
    | rest =>
      match parseNumber rest with
      | none => none
      | some (q, rem) => some (.num q, rem)

def parseJsonItems : Nat → List Char → Option (List Json × List Char)
  | 0, _ => none
  | fuel + 1, l =>
    match parseJsonVal fuel l with
    | none => none
    | some (v, rem) =>
      match skipJsonWs rem with
      | ',' :: r =>
        match parseJsonItems fuel r with
        | none => none
        | some (vs, rem2) => some (v :: vs, rem2)
      | ']' :: r => some ([v], r)
      | _ => none

def parseJsonFields : Nat → List Char → Option (List (String × Json) × List Char)
  | 0, _ => none
  | fuel + 1, l =>
    match skipJsonWs l with
    | '"' :: r =>
      match parseJString r with
      | none => none
      | some (k, rem) =>
        match skipJsonWs rem with
        | ':' :: r2 =>
          match parseJsonVal fuel r2 with
          | none => none
          | some (v, rem2) =>
            match skipJsonWs rem2 with
            | ',' :: r3 =>
              match parseJsonFields fuel r3 with
              | none => none
              | some (fs, rem3) => some ((⟨k⟩, v) :: fs, rem3)
            | '\x7d' :: r3 => some ([(⟨k⟩, v)], r3)
            | _ => none
        | _ => none
    | _ => none

end

/-- `json.loads`: decode one value, allow surrounding whitespace, reject
trailing data (`Extra data` error → decode failure). -/
def json_loads (s : List Char) : Option Json :=
  match parseJsonVal (s.length + 1) s with
  | none => none
  | some (v, rem) => if (skipJsonWs rem).isEmpty then some v else none

/-! ## Canvas element validation (`CanvasElement`, main.py)

Pydantic v2 validation of one decoded item against the `CanvasElement`
schema: `type: str` required; `x`/`y` floats defaulting to `100`;
`width`/`height` optional floats; `text` and the colour/id fields optional
strings; `fontSize` an optional int (integral numbers accepted).  A
non-object item fails (`CanvasElement(**item)` needs a mapping).  Pydantic's
lax string-to-number coercions are not modelled (no claim exercises them).
`model_dump(exclude_none=True)` emits the set fields in declaration
order and omits the `None`-valued optionals. -/

structure CanvasElement where
  type : String
  x : Rat
  y : Rat
  width : Option Rat
  height : Option Rat
  text : Option String
  backgroundColor : Option String
  strokeColor : Option String
  fontSize : Option Int
  id : Option String
  startId : Option String
  endId : Option String
deriving Repr

/-- Validate an optional string field: absent or `null` gives `none`,
a string gives the value, anything else fails validation. -/
def vOptStr (d : PyDict) (k : String) : Option (Option String) :=
  match lookupS d k with
  | none => some none
  | some .null => some none
  | some (.str s) => some (some s)
  | some _ => none

/-- Validate an optional float field. -/
def vOptNum (d : PyDict) (k : String) : Option (Option Rat) :=
  match lookupS d k with
  | none => some none
  | some .null => some none
  | some (.num q) => some (some q)
  | some _ => none

/-- Validate an optional int field (integral numbers accepted). -/
def vOptInt (d : PyDict) (k : String) : Option (Option Int) :=
  match lookupS d k with
  | none => some none
  | some .null => some none
  | some (.num q) => if q.den = 1 then some (some q.num) else none
  | some _ => none

/-- Validate a required-with-default float field (`x`, `y`). -/
def vNumD (d : PyDict) (k : String) (dflt : Rat) : Option Rat :=
  match lookupS d k with
  | none => some dflt
  | some (.num q) => some q
  | some _ => none

/-- `CanvasElement(**item)`: `some` on successful validation. -/
def canvasElementOf : Json → Option CanvasElement
  | .obj d =>
    match lookupS d "type" with
    | some (.str t) =>
      match vNumD d "x" 100, vNumD d "y" 100, vOptNum d "width", vOptNum d "height",
            vOptStr d "text", vOptStr d "backgroundColor", vOptStr d "strokeColor",
            vOptInt d "fontSize", vOptStr d "id", vOptStr d "startId",
            vOptStr d "endId" with
      | some x, some y, some w, some h, some tx, some bg, some sc, some fs,
          some i, some si, some ei =>
        some { type := t, x := x, y := y, width := w, height := h, text := tx,
               backgroundColor := bg, strokeColor := sc, fontSize := fs,
               id := i, startId := si, endId := ei }
      | _, _, _, _, _, _, _, _, _, _, _ => none
    | _ => none
  | _ => none

def optField {α : Type} (k : String) (f : α → Json) : Option α → List (String × Json)
  | none => []
  | some v => [(k, f v)]

/-- `el.model_dump(exclude_none=True)`: fields in declaration order,
`None`-valued optionals omitted. -/
def dumpCanvasElement (el : CanvasElement) : Json :=
  .obj ([("type", Json.str el.type), ("x", Json.num el.x), ("y", Json.num el.y)]
    ++ optField "width" Json.num el.width
    ++ optField "height" Json.num el.height
    ++ optField "text" Json.str el.text
    ++ optField "backgroundColor" Json.str el.backgroundColor
    ++ optField "strokeColor" Json.str el.strokeColor
    ++ optField "fontSize" (fun n => Json.num (n : Rat)) el.fontSize
    ++ optField "id" Json.str el.id
    ++ optField "startId" Json.str el.startId
    ++ optField "endId" Json.str el.endId)

/-- The per-item step of `parse_canvas_json`: validated items are dumped
back (defaults filled, `None` fields dropped), failing items are kept as the
raw decoded data. -/
def validateItem (it : Json) : Json :=
  match canvasElementOf it with
  | some el => dumpCanvasElement el
  | none => it

/-- Whether a decoded value is an object carrying a `"type"` key. -/
def hasTypeKey : Json → Bool
  | .obj fields => (lookupS fields "type").isSome
  | _ => false

/-! ## `parse_canvas_json` (main.py) -/

def fenceTicks : List Char := "```".data

/-- `_FENCE_OPEN.sub("", text)`: drop a leading ``` fence with its optional
language word and newline. -/
def fenceOpenSub (l : List Char) : List Char :=
  if isPrefixL fenceTicks l then
    let r := (l.drop 3).dropWhile (fun c => c.isAlphanum || c == '_')
    match r with
    | '\n' :: r2 => r2
    | _ => r
  else l

/-- `_FENCE_CLOSE.sub("", text)`: drop a trailing ``` fence with its
optional preceding newline. -/
def fenceCloseSub (l : List Char) : List Char :=
  let r := l.reverse
  if isPrefixL fenceTicks r then
    let r2 := r.drop 3
    match r2 with
    | '\n' :: r3 => r3.reverse
    | _ => r2.reverse
  else l

/-- The text preprocessing of `parse_canvas_json`: strip think markup,
`strip()`, and remove a markdown fence wrapper when present. -/
def canvasText (raw : List Char) : List Char :=
  let text := stripL (strip_think_tags raw)
  if isPrefixL fenceTicks text then fenceCloseSub (fenceOpenSub text) else text

/-- `parse_canvas_json` (main.py): decode the preprocessed text; a non-list
or empty-list decode yields `None`; otherwise each item is validated,
failures being retained verbatim. -/
def parse_canvas_json (raw : List Char) : Option (List Json) :=
  match json_loads (canvasText raw) with
  | some (.arr items) =>
    if items.length > 0 then some (items.map validateItem) else none
  | _ => none

/-- C4 counterexample: `parse('[{"type":"rectangle"}]')` returns one
normalized element in which the position defaults `x = y = 100` are filled,
but — against the claim — the size fields are NOT filled: `width` and
`height` default to `None` and `model_dump(exclude_none=True)` omits them,
so the element carries no `width` or `height` key at all. -/
theorem parse_rectangle_size_fields_missing :
    parse_canvas_json "[\x7b\"type\":\"rectangle\"\x7d]".data =
      some [Json.obj [("type", Json.str "rectangle"),
                      ("x", Json.num 100), ("y", Json.num 100)]] ∧
    lookupS [("type", Json.str "rectangle"),
             ("x", Json.num 100), ("y", Json.num 100)] "width" = none ∧
    lookupS [("type", Json.str "rectangle"),
             ("x", Json.num 100), ("y", Json.num 100)] "height" = none := by
  refine ⟨rfl, rfl, rfl⟩

/-- C4 amended: `parse("not json")` is `None`; `parse("[]")` is `None`;
`parse('[{"type":"rectangle"}]')` is one normalized element with the
default position fields `x = y = 100` filled in, while `width`/`height`
have no defaults and are omitted from the dump. -/
theorem parse_canvas_json_robustness :
    parse_canvas_json "not json".data = none ∧
    parse_canvas_json "[]".data = none ∧
    parse_canvas_json "[\x7b\"type\":\"rectangle\"\x7d]".data =
      some [Json.obj [("type", Json.str "rectangle"),
                      ("x", Json.num 100), ("y", Json.num 100)]] := by
  refine ⟨rfl, rfl, rfl⟩

/-- C5 counterexample: `parse('[{"x":5}]')` succeeds, keeping the item that
fails validation (no `type`) as raw data — so, against the claim's first
conjunct, a non-None parse result can contain an element with no type tag. -/
theorem parse_keeps_item_without_type_tag :
    parse_canvas_json "[\x7b\"x\":5\x7d]".data = some [Json.obj [("x", Json.num 5)]] ∧
    hasTypeKey (Json.obj [("x", Json.num 5)]) = false := by
  refine ⟨rfl, rfl⟩

/-- C5 amended: a non-None `parse` result comes from a successful decode of
the preprocessed text into a non-empty list `items`, and equals
`items.map validateItem`: exactly one entry per decoded input item, in
order.  Positionally, an item failing `CanvasElement` validation is retained
verbatim as raw data at its own index, and an item that validates is dumped
at its own index with a `"type"` key — but raw-retained failures need not
carry a type tag (see the counterexample). -/
theorem parse_canvas_json_per_item (raw : List Char) (out : List Json)
    (h : parse_canvas_json raw = some out) :
    ∃ items : List Json,
      json_loads (canvasText raw) = some (Json.arr items) ∧
      items ≠ [] ∧
      out = items.map validateItem ∧
      out.length = items.length ∧
      (∀ i : Nat, ∀ hi : i < items.length, canvasElementOf items[i] = none →
        out[i]? = some items[i]) ∧
      (∀ i : Nat, ∀ hi : i < items.length, ∀ el : CanvasElement,
        canvasElementOf items[i] = some el →
        ∃ rest, out[i]? = some (Json.obj (("type", Json.str el.type) :: rest))) := by
  unfold parse_canvas_json at h
  cases hj : json_loads (canvasText raw) with
  | none => rw [hj] at h; exact absurd h (by simp)
  | some v =>
    rw [hj] at h
    cases v with
    | arr items =>
      by_cases hlen : items.length > 0
      · simp only [hlen, if_true] at h
        have hout : out = items.map validateItem := (Option.some.injEq _ _ ▸ h).symm
        have hnil : items ≠ [] := by
          intro hx
          rw [hx] at hlen
          exact absurd hlen (by simp)
        refine ⟨items, rfl, hnil, hout, ?_, ?_, ?_⟩
        · rw [hout, List.length_map]
        · intro i hi h0
          rw [hout, List.getElem?_map, List.getElem?_eq_getElem hi]
          simp [validateItem, h0]
        · intro i hi el hel
          refine ⟨[("x", Json.num el.x), ("y", Json.num el.y)]
            ++ optField "width" Json.num el.width
            ++ optField "height" Json.num el.height
            ++ optField "text" Json.str el.text
            ++ optField "backgroundColor" Json.str el.backgroundColor
            ++ optField "strokeColor" Json.str el.strokeColor
            ++ optField "fontSize" (fun n => Json.num (n : Rat)) el.fontSize
            ++ optField "id" Json.str el.id
            ++ optField "startId" Json.str el.startId
            ++ optField "endId" Json.str el.endId, ?_⟩
          rw [hout, List.getElem?_map, List.getElem?_eq_getElem hi]
          simp only [Option.map_some', validateItem, hel]
          rfl
      · simp [hlen] at h
    | null => exact absurd h (by simp)
    | bool b => exact absurd h (by simp)
    | num q => exact absurd h (by simp)
    | str s => exact absurd h (by simp)
    | obj fields => exact absurd h (by simp)

/-- Witness for C5 amended at `'[{"type":"rectangle"},{"x":5}]'`: one
validating item and one raw-retained item. -/
theorem parse_canvas_json_per_item_witness :
    ∃ items : List Json,
      json_loads (canvasText "[\x7b\"type\":\"rectangle\"\x7d,\x7b\"x\":5\x7d]".data) =
        some (Json.arr items) ∧
      items ≠ [] ∧
      [Json.obj [("type", Json.str "rectangle"),
                 ("x", Json.num 100), ("y", Json.num 100)],
       Json.obj [("x", Json.num 5)]] = items.map validateItem ∧
      ([Json.obj [("type", Json.str "rectangle"),
                  ("x", Json.num 100), ("y", Json.num 100)],
        Json.obj [("x", Json.num 5)]] : List Json).length = items.length ∧
      (∀ i : Nat, ∀ hi : i < items.length, canvasElementOf items[i] = none →
        [Json.obj [("type", Json.str "rectangle"),
                   ("x", Json.num 100), ("y", Json.num 100)],
         Json.obj [("x", Json.num 5)]][i]? = some items[i]) ∧
      (∀ i : Nat, ∀ hi : i < items.length, ∀ el : CanvasElement,
        canvasElementOf items[i] = some el →
        ∃ rest, [Json.obj [("type", Json.str "rectangle"),
                           ("x", Json.num 100), ("y", Json.num 100)],
                 Json.obj [("x", Json.num 5)]][i]? =
          some (Json.obj (("type", Json.str el.type) :: rest))) :=
  parse_canvas_json_per_item
    "[\x7b\"type\":\"rectangle\"\x7d,\x7b\"x\":5\x7d]".data
    [Json.obj [("type", Json.str "rectangle"),
               ("x", Json.num 100), ("y", Json.num 100)],
     Json.obj [("x", Json.num 5)]] rfl

end ChatService
